import Mathlib

/-!
Verification of the migration coordinator in `setup_migration.py`
(PostgreSQL → ScyllaDB migration setup).

The Python source is shallowly embedded: pure string-building helpers become
Lean functions on `String`/`List`, the per-table migration routine becomes a
total function over an explicit environment recording the outcome of each
database interaction, and the worker loop / counter aggregation become folds.
Machine behaviour that the claims do not touch (actual SQL execution, docker
calls, logging text) is abstracted to the data the control flow inspects.
-/

namespace SetupMigration

/-- Python `str.lower()` as used on type names: character-wise lowering
(the names involved are ASCII). -/
def py_lower (s : String) : String := ⟨s.data.map Char.toLower⟩

/-- Python `udt_name.lstrip('_')`: drop every leading underscore. -/
def lstrip_underscore (s : String) : String := ⟨s.data.dropWhile (fun c => c = '_')⟩

/-- The `type_mapping` dictionary inside `pg_type_to_cql_type`
(`setup_migration.py`, lines 547-572), as an association list. -/
def type_mapping : List (String × String) :=
  [("smallint", "smallint"),
   ("integer", "int"),
   ("bigint", "bigint"),
   ("real", "float"),
   ("double precision", "double"),
   ("numeric", "decimal"),
   ("decimal", "decimal"),
   ("boolean", "boolean"),
   ("character", "text"),
   ("character varying", "text"),
   ("varchar", "text"),
   ("text", "text"),
   ("bytea", "blob"),
   ("date", "date"),
   ("time", "time"),
   ("time without time zone", "time"),
   ("timestamp", "timestamp"),
   ("timestamp without time zone", "timestamp"),
   ("timestamp with time zone", "timestamp"),
   ("timestamptz", "timestamp"),
   ("uuid", "uuid"),
   ("inet", "inet"),
   ("json", "text"),
   ("jsonb", "text")]

/-- The recursive call `pg_type_to_cql_type(base_type, None)` made inside the
array branch of the source function.  With `udt_name = None` the source
function returns `type_mapping.get(pg_type.lower(), 'text')` on every path
(the inner `if udt_name:` cannot be entered), so that call is exactly this
lookup of the lowered argument. -/
def scalar_lookup (t : String) : String :=
  (type_mapping.lookup (py_lower t)).getD "text"

/-- `pg_type_to_cql_type(pg_type, udt_name)` (`setup_migration.py`,
lines 545-584).  Note the source computes `pg_type_lower = pg_type.lower()`
and then tests `pg_type_lower == 'ARRAY'` — an uppercase literal — before
falling back to `type_mapping.get(pg_type_lower, 'text')`.  The inner
`if udt_name:` test is Python truthiness (None and the empty string are
falsy). -/
def pg_type_to_cql_type (pg_type : String) (udt_name : Option String) : String :=
  let pg_type_lower := py_lower pg_type
  if pg_type_lower = "ARRAY" then
    match udt_name with
    | some u =>
        if u = "" then (type_mapping.lookup pg_type_lower).getD "text"
        else "list<" ++ scalar_lookup (lstrip_underscore u) ++ ">"
    | none => (type_mapping.lookup pg_type_lower).getD "text"
  else
    (type_mapping.lookup pg_type_lower).getD "text"

/-- A column as introspected by `get_table_columns` (`setup_migration.py`,
lines 501-525): name, `data_type`, nullability, default, `udt_name`,
`character_maximum_length`. -/
structure Column where
  name : String
  type : String
  nullable : Bool
  default : Option String
  udt_name : Option String
  max_length : Option Nat
deriving DecidableEq, Repr

/-- The primary-key clause built by `create_scylla_table`
(`setup_migration.py`, lines 612-616): a simple key for one column,
otherwise all key columns together in doubled parentheses. -/
def pk_clause (primary_key : List String) : String :=
  if primary_key.length = 1 then
    "PRIMARY KEY (" ++ primary_key.headD "" ++ ")"
  else
    "PRIMARY KEY ((" ++ String.intercalate ", " primary_key ++ "))"

/-- `col_names` in `create_replication_triggers` (line 698). -/
def col_names (columns : List Column) : List String := columns.map Column.name

/-- `non_pk_cols` in `create_replication_triggers` (lines 701-702): the
column names that are not primary-key columns, in declaration order. -/
def non_pk_cols (columns : List Column) (primary_key : List String) : List String :=
  (col_names columns).filter (fun col => !(primary_key.contains col))

/-- `pk_conditions` in `create_replication_triggers` (line 709): the WHERE
conjunction matching every primary-key column against its OLD value. -/
def pk_conditions (primary_key : List String) : String :=
  String.intercalate " AND "
    (primary_key.map (fun pk => "\"" ++ pk ++ "\" = OLD.\"" ++ pk ++ "\""))

/-- `set_clause` in `create_replication_triggers` (line 713): assignments of
NEW values to exactly the non-primary-key columns. -/
def set_clause (columns : List Column) (primary_key : List String) : String :=
  String.intercalate ", "
    ((non_pk_cols columns primary_key).map
      (fun col => "\"" ++ col ++ "\" = NEW.\"" ++ col ++ "\""))

/-- `update_statement` in `create_replication_triggers` (lines 712-719): the
body of the UPDATE branch of the generated trigger function.  Whitespace of
the source's triple-quoted f-string is normalised to single spaces; the
no-op branch emits the source's literal comment. -/
def update_statement (fdw_schema table_name : String)
    (columns : List Column) (primary_key : List String) : String :=
  if non_pk_cols columns primary_key ≠ [] then
    "UPDATE \"" ++ fdw_schema ++ "\".\"" ++ table_name ++ "\" SET "
      ++ set_clause columns primary_key
      ++ " WHERE " ++ pk_conditions primary_key ++ ";"
  else
    "-- No columns to update besides primary key"

/-! ### Round-robin partition (`main`, lines 72-75)

`thread_tables = [[] for _ in range(num_threads)]` followed by
`thread_tables[i % num_threads].append(table)` over the enumerated,
name-sorted table list. -/

/-- One pass of the distribution loop: `i` is the running enumeration index,
`acc` the per-thread buckets. -/
def round_robin_loop (num_threads : Nat) :
    List (List α) → Nat → List α → List (List α)
  | acc, _, [] => acc
  | acc, i, t :: ts =>
      round_robin_loop num_threads
        (acc.set (i % num_threads)
          (acc.getD (i % num_threads) [] ++ [t]))
        (i + 1) ts

/-- The per-thread table buckets produced by `main`. -/
def thread_tables (num_threads : Nat) (tables : List α) : List (List α) :=
  round_robin_loop num_threads (List.replicate num_threads []) 0 tables

/-- Declarative description of one worker's share: the elements of the list
whose enumeration index (starting at `i`) is congruent to `k` modulo
`num_threads`, in order. -/
def assigned (num_threads k : Nat) : Nat → List α → List α
  | _, [] => []
  | i, t :: ts =>
      if i % num_threads = k then t :: assigned num_threads k (i + 1) ts
      else assigned num_threads k (i + 1) ts

/-- Number of indices `j < m` with `j % num_threads = k`. -/
def residue_count (num_threads k : Nat) : Nat → Nat
  | 0 => 0
  | m + 1 => residue_count num_threads k m + (if m % num_threads = k then 1 else 0)

/-! ### Bulk copy (`migrate_table_data`, lines 769-822) -/

/-- The statements `migrate_table_data` can issue on its cursor. -/
inductive PgStmt where
  | selectCount : PgStmt
  | insertSelect : PgStmt
deriving DecidableEq, Repr

/-- `migrate_table_data(cursor, ...)` over a source table with
`source_count` rows: the statements executed, and the returned row count.
The function first runs `SELECT COUNT(*)`; on zero it returns 0 without
copying, otherwise it runs the single bulk `INSERT INTO fdw SELECT * FROM
source` and returns the count. -/
def migrate_table_data (source_count : Nat) : List PgStmt × Nat :=
  if source_count = 0 then ([PgStmt.selectCount], 0)
  else ([PgStmt.selectCount, PgStmt.insertSelect], source_count)

/-! ### Per-table migration (`process_table_migration`, lines 409-498)

The database interactions are abstracted to an environment recording, for
each fallible step, whether it raises, plus the introspected schema and the
row counts the two `SELECT COUNT(*)` queries observe.  The fields appear in
the order the source consults them. -/

structure TableEnv where
  /-- result of `get_table_columns`. -/
  columns : List Column
  /-- result of `get_primary_key`. -/
  primary_key : List String
  /-- the `LOCK TABLE` statement raises. -/
  lock_err : Bool
  /-- `get_table_columns` / `get_primary_key` raise. -/
  introspect_err : Bool
  /-- `create_keyspace` raises. -/
  keyspace_err : Bool
  /-- `create_scylla_table` raises. -/
  scylla_table_err : Bool
  /-- `create_foreign_table` raises. -/
  foreign_table_err : Bool
  /-- `create_replication_triggers` raises. -/
  triggers_err : Bool
  /-- the `--skip-existing-data` flag. -/
  skip_existing_data : Bool
  /-- `migrate_table_data` raises. -/
  migrate_err : Bool
  /-- row count of the source table. -/
  source_rows : Nat
  /-- the verification `SELECT COUNT(*)` on the foreign table raises. -/
  verify_read_err : Bool
  /-- row count read back through the foreign table. -/
  foreign_rows : Nat
  /-- `pg_conn.commit()` raises. -/
  commit_err : Bool
deriving DecidableEq, Repr

/-- Outcome of `process_table_migration` for one table: the returned
boolean, whether the transaction committed (otherwise it was rolled back),
whether the no-primary-key skip message was logged, and whether the
row-count-mismatch warning was logged.  The source catches every exception,
so the function is total. -/
structure TableResult where
  returned : Bool
  committed : Bool
  skipped_log : Bool
  mismatch_warn : Bool
deriving DecidableEq, Repr

/-- `process_table_migration` (lines 409-498).  Every `except` path rolls
back and returns `False`; the skip path (empty primary key) rolls back,
logs the skip message and returns `False`; the mismatch path only logs a
warning and proceeds to commit. -/
def process_table_migration (e : TableEnv) : TableResult :=
  if e.lock_err then ⟨false, false, false, false⟩
  else if e.introspect_err then ⟨false, false, false, false⟩
  else if e.primary_key = [] then ⟨false, false, true, false⟩
  else if e.keyspace_err then ⟨false, false, false, false⟩
  else if e.scylla_table_err then ⟨false, false, false, false⟩
  else if e.foreign_table_err then ⟨false, false, false, false⟩
  else if e.triggers_err then ⟨false, false, false, false⟩
  else if e.skip_existing_data then
    if e.commit_err then ⟨false, false, false, false⟩
    else ⟨true, true, false, false⟩
  else if e.migrate_err then ⟨false, false, false, false⟩
  else
    let source_count := (migrate_table_data e.source_rows).2
    if 0 < source_count then
      if e.verify_read_err then ⟨false, false, false, false⟩
      else
        let mismatch := source_count != e.foreign_rows
        if e.commit_err then ⟨false, false, false, mismatch⟩
        else ⟨true, true, false, mismatch⟩
    else
      if e.commit_err then ⟨false, false, false, false⟩
      else ⟨true, true, false, false⟩

/-! ### Worker loop and aggregation (`worker_thread`, lines 364-406;
`main`, lines 83-107) -/

/-- One table as seen by a worker: its environment, plus whether an
unexpected exception escapes `process_table_migration` into the worker's
own `except` clause (which also counts the table as failed). -/
structure AssignedTable where
  env : TableEnv
  unexpected_err : Bool
deriving DecidableEq, Repr

/-- The body of the worker's `for table_name in tables:` loop, acting on the
`(success, failed)` accumulator. -/
def worker_step (acc : Nat × Nat) (t : AssignedTable) : Nat × Nat :=
  if t.unexpected_err then (acc.1, acc.2 + 1)
  else if (process_table_migration t.env).returned then (acc.1 + 1, acc.2)
  else (acc.1, acc.2 + 1)

/-- The worker's per-table loop starting from `success = 0; failed = 0`. -/
def worker_loop (tables : List AssignedTable) : Nat × Nat :=
  tables.foldl worker_step (0, 0)

/-- `worker_thread`: if the worker cannot establish its own connections it
logs and returns before the loop, contributing nothing to either counter;
otherwise it processes its tables and reports its `(success, failed)`
pair. -/
def worker_thread (conn_ok : Bool) (tables : List AssignedTable) : Nat × Nat :=
  if conn_ok then worker_loop tables else (0, 0)

/-- `main`'s shared counters: each worker's pair is added exactly once,
under `counter_lock`; the lock serialises the updates, so the aggregate is
the fold of the per-worker contributions. -/
def aggregate_totals (workers : List (Nat × Nat)) : Nat × Nat :=
  workers.foldl (fun tot w => (tot.1 + w.1, tot.2 + w.2)) (0, 0)

/-- The summary lines `main` prints after joining the workers
(lines 102-107): the success total always, the failed total only when it is
positive.  Nothing else about the run is reported. -/
def final_report (total_success total_failed : Nat) : List String :=
  ["✓ Migration setup completed!",
   "  - Successfully migrated: " ++ toString total_success ++ " table(s)"]
  ++ (if 0 < total_failed then
        ["  - Failed: " ++ toString total_failed ++ " table(s) (see errors above)"]
      else [])

/-! ### Concrete fixtures used by counterexamples and witnesses -/

/-- A table environment in which every database interaction succeeds. -/
def env_ok (cols : List Column) (pk : List String) (src frn : Nat) : TableEnv :=
  ⟨cols, pk, false, false, false, false, false, false, false, false, src, false, frn, false⟩

def col_animal_id : Column := ⟨"animal_id", "integer", false, none, some "int4", none⟩

def col_animal_name : Column := ⟨"name", "text", true, none, some "text", none⟩

def col_age : Column := ⟨"age", "integer", true, none, some "int4", none⟩

/-- The example table `animals(animal_id int PK, name text, age int)` with
3 rows, all steps succeeding. -/
def animals_env : TableEnv :=
  env_ok [col_animal_id, col_animal_name, col_age] ["animal_id"] 3 3

/-- A table introspected with an empty primary-key column list. -/
def no_pk_env : TableEnv :=
  env_ok [col_animal_id, col_animal_name] [] 0 0

/-! ### Helper lemmas about the round-robin partition -/

theorem getD_set_self (l : List α) (k : Nat) (h : k < l.length) (v d : α) :
    (l.set k v).getD k d = v := by
  rw [List.getD_eq_getElem?_getD, List.getElem?_set]
  simp [h]

theorem getD_set_ne (l : List α) (j k : Nat) (h : j ≠ k) (v d : α) :
    (l.set j v).getD k d = l.getD k d := by
  rw [List.getD_eq_getElem?_getD, List.getElem?_set_ne h, ← List.getD_eq_getElem?_getD]

theorem round_robin_loop_length (n : Nat) :
    ∀ (ts : List α) (acc : List (List α)) (i : Nat),
      (round_robin_loop n acc i ts).length = acc.length := by
  intro ts
  induction ts with
  | nil => intro acc i; rfl
  | cons t ts ih =>
      intro acc i
      simp only [round_robin_loop]
      rw [ih, List.length_set]

/-- After the loop, bucket `k` holds its initial content followed by exactly
the tables whose enumeration index is congruent to `k` modulo `n`. -/
theorem round_robin_loop_getD (n k : Nat) (hk : k < n) :
    ∀ (ts : List α) (acc : List (List α)) (i : Nat), acc.length = n →
      (round_robin_loop n acc i ts).getD k [] = acc.getD k [] ++ assigned n k i ts := by
  intro ts
  induction ts with
  | nil => intro acc i _; simp [round_robin_loop, assigned]
  | cons t ts ih =>
      intro acc i hlen
      have hn : 0 < n := Nat.lt_of_le_of_lt (Nat.zero_le k) hk
      have hmod : i % n < acc.length := by rw [hlen]; exact Nat.mod_lt i hn
      simp only [round_robin_loop]
      rw [ih _ _ (by rw [List.length_set, hlen])]
      by_cases hik : i % n = k
      · rw [hik] at hmod
        rw [hik, getD_set_self _ _ hmod]
        simp [assigned, hik, List.append_assoc]
      · rw [getD_set_ne _ _ _ hik]
        simp [assigned, hik]

theorem assigned_append_singleton (n k : Nat) (t : α) :
    ∀ (ts : List α) (i : Nat),
      assigned n k i (ts ++ [t]) =
        assigned n k i ts ++ (if (i + ts.length) % n = k then [t] else []) := by
  intro ts
  induction ts with
  | nil => intro i; simp [assigned]
  | cons x ts ih =>
      intro i
      have hidx : i + 1 + ts.length = i + (ts.length + 1) := by omega
      simp only [List.cons_append, assigned, List.length_cons, List.append_eq]
      rw [ih (i + 1), hidx]
      by_cases h : i % n = k <;> simp [h]

theorem assigned_length_eq (n k : Nat) :
    ∀ ts : List α, (assigned n k 0 ts).length = residue_count n k ts.length := by
  intro ts
  induction ts using List.reverseRecOn with
  | nil => rfl
  | append_singleton ys t ih =>
      rw [assigned_append_singleton]
      simp only [List.length_append, List.length_cons, List.length_nil, Nat.zero_add,
        residue_count, ← ih]
      by_cases h : ys.length % n = k <;> simp [h]

theorem count_step_lt (q r k : Nat) :
    q + (if k < r then 1 else 0) + (if r = k then 1 else 0) =
      q + (if k < r + 1 then 1 else 0) := by
  split_ifs <;> omega

theorem count_step_wrap (q r k : Nat) (hkr : k ≤ r) :
    q + (if k < r then 1 else 0) + (if r = k then 1 else 0) = q + 1 := by
  split_ifs <;> omega

theorem succ_div_mod (n M : Nat) (hn : 0 < n) :
    ((M + 1) / n = M / n ∧ (M + 1) % n = M % n + 1) ∨
    ((M + 1) / n = M / n + 1 ∧ (M + 1) % n = 0 ∧ M % n + 1 = n) := by
  have hdm : n * (M / n) + M % n = M := Nat.div_add_mod M n
  have hrn : M % n < n := Nat.mod_lt M hn
  rcases Nat.lt_or_ge (M % n + 1) n with h | h
  · exact Or.inl ((Nat.div_mod_unique hn).mpr ⟨by linarith, h⟩)
  · have heq : M % n + 1 = n := Nat.le_antisymm (Nat.succ_le_of_lt hrn) h
    have key : (M + 1) / n = M / n + 1 ∧ (M + 1) % n = 0 :=
      (Nat.div_mod_unique hn).mpr ⟨by rw [Nat.mul_add, Nat.mul_one]; linarith, hn⟩
    exact Or.inr ⟨key.1, key.2, heq⟩

theorem residue_count_eq (n k : Nat) (hn : 0 < n) (hk : k < n) :
    ∀ M, residue_count n k M = M / n + (if k < M % n then 1 else 0) := by
  intro M
  induction M with
  | zero => simp [residue_count]
  | succ M ih =>
      have hstep : residue_count n k (M + 1) =
          residue_count n k M + (if M % n = k then 1 else 0) := rfl
      rw [hstep, ih]
      rcases succ_div_mod n M hn with ⟨h1, h2⟩ | ⟨h1, h2, h3⟩
      · rw [h1, h2]
        exact count_step_lt (M / n) (M % n) k
      · rw [h1, h2, if_neg (Nat.not_lt_zero k), Nat.add_zero]
        have hk1 : k < M % n + 1 := by rw [h3]; exact hk
        exact count_step_wrap (M / n) (M % n) k (Nat.lt_succ_iff.mp hk1)

theorem ceil_arith (a r n M : Nat) (h : a + r = M) (h1 : 1 ≤ r) :
    r - 1 + (a + n) = M + n - 1 := by omega

theorem ceil_div_of_pos_mod (n M : Nat) (hn : 0 < n) (hr : 0 < M % n) :
    (M + n - 1) / n = M / n + 1 := by
  have hdm : n * (M / n) + M % n = M := Nat.div_add_mod M n
  have hrn : M % n < n := Nat.mod_lt M hn
  have key : (M + n - 1) / n = M / n + 1 ∧ (M + n - 1) % n = M % n - 1 :=
    (Nat.div_mod_unique hn).mpr
      ⟨by rw [Nat.mul_add, Nat.mul_one]; exact ceil_arith (n * (M / n)) (M % n) n M hdm hr,
       Nat.lt_of_le_of_lt (Nat.sub_le _ _) hrn⟩
  exact key.1

theorem flatten_set_append (t : α) :
    ∀ (l : List (List α)) (k : Nat), k < l.length →
      (l.set k (l.getD k [] ++ [t])).flatten.Perm (l.flatten ++ [t]) := by
  intro l
  induction l with
  | nil => intro k hk; exact absurd hk (Nat.not_lt_zero k)
  | cons x xs ih =>
      intro k hk
      cases k with
      | zero =>
          simp only [List.set, List.getD_cons_zero, List.flatten_cons]
          have hl : (x ++ [t]) ++ xs.flatten = x ++ ([t] ++ xs.flatten) := by
            rw [List.append_assoc]
          rw [hl, List.append_assoc]
          exact List.Perm.append_left x List.perm_append_comm
      | succ k =>
          simp only [List.set, List.getD_cons_succ, List.flatten_cons]
          rw [List.append_assoc]
          exact List.Perm.append_left x (ih k (Nat.lt_of_succ_lt_succ hk))

theorem round_robin_loop_flatten (n : Nat) (hn : 0 < n) :
    ∀ (ts : List α) (acc : List (List α)) (i : Nat), acc.length = n →
      (round_robin_loop n acc i ts).flatten.Perm (acc.flatten ++ ts) := by
  intro ts
  induction ts with
  | nil =>
      intro acc i _
      simp only [round_robin_loop, List.append_nil]
      exact List.Perm.refl _
  | cons t ts ih =>
      intro acc i hlen
      have hmod : i % n < acc.length := by rw [hlen]; exact Nat.mod_lt i hn
      simp only [round_robin_loop]
      have h1 := ih (acc.set (i % n) (acc.getD (i % n) [] ++ [t])) (i + 1)
        (by rw [List.length_set, hlen])
      have h2 := (flatten_set_append t acc (i % n) hmod).append_right ts
      have h3 : (acc.flatten ++ [t]) ++ ts = acc.flatten ++ (t :: ts) := by
        rw [List.append_assoc]
        rfl
      exact h1.trans (h3 ▸ h2)

theorem getD_replicate_nil : ∀ (m j : Nat),
    (List.replicate m ([] : List α)).getD j [] = ([] : List α) := by
  intro m
  induction m with
  | zero => intro j; rfl
  | succ m ih =>
      intro j
      cases j with
      | zero => simp [List.replicate_succ]
      | succ j => simp [List.replicate_succ, ih]

theorem flatten_replicate_nil : ∀ m : Nat,
    (List.replicate m ([] : List α)).flatten = ([] : List α) := by
  intro m
  induction m with
  | zero => rfl
  | succ m ih => simp [List.replicate_succ, ih]

theorem thread_tables_getD (n k : Nat) (hk : k < n) (tables : List α) :
    (thread_tables n tables).getD k [] = assigned n k 0 tables := by
  rw [thread_tables,
    round_robin_loop_getD n k hk tables _ 0 (List.length_replicate n []),
    getD_replicate_nil, List.nil_append]

/-! ### Helper lemmas about the worker tallies -/

/-- Every iteration of the worker loop increments exactly one of the two
counters, whatever the table's outcome. -/
theorem foldl_worker_step_sum :
    ∀ (ts : List AssignedTable) (acc : Nat × Nat),
      (ts.foldl worker_step acc).1 + (ts.foldl worker_step acc).2 =
        acc.1 + acc.2 + ts.length := by
  intro ts
  induction ts with
  | nil => intro acc; simp
  | cons t ts ih =>
      intro acc
      rw [List.foldl_cons, ih, List.length_cons]
      unfold worker_step
      split_ifs <;> simp <;> omega

/-- Folding the per-worker pairs into the shared counters adds each worker's
success and failure contribution exactly once. -/
theorem foldl_totals :
    ∀ (ws : List (Nat × Nat)) (acc : Nat × Nat),
      ws.foldl (fun tot w => (tot.1 + w.1, tot.2 + w.2)) acc =
        (acc.1 + (ws.map Prod.fst).sum, acc.2 + (ws.map Prod.snd).sum) := by
  intro ws
  induction ws with
  | nil => intro acc; simp
  | cons w ws ih =>
      intro acc
      rw [List.foldl_cons, ih]
      simp [Nat.add_assoc]

/-! ### Claim theorems -/

/-- C2 (code bug): for an array column the introspected `data_type` is the
literal `'ARRAY'`, but the source lowercases the type name before comparing
it with `'ARRAY'`, so the collection branch can never fire: every array
column falls through to the scalar lookup and maps to `text`, never to an
ordered-list type, contradicting the source's own `Handle ARRAY types`
comment and the spec.  Shown here for every possible `udt_name`, and in
particular for a text array and an integer array. -/
theorem array_type_maps_to_text_bug :
    (∀ u : String, pg_type_to_cql_type "ARRAY" (some u) = "text") ∧
    pg_type_to_cql_type "ARRAY" (some "_text") = "text" ∧
    pg_type_to_cql_type "ARRAY" (some "_int4") = "text" ∧
    pg_type_to_cql_type "ARRAY" (some "_text") ≠ "list<text>" := by
  refine ⟨?_, by decide, by decide, by decide⟩
  intro u
  unfold pg_type_to_cql_type
  rw [if_neg (by decide : ¬py_lower "ARRAY" = "ARRAY")]
  decide

/-- C3: on every scalar type name (any name whose lowering is not the
collection marker `'ARRAY'`) the mapper is a total deterministic lookup of
the lowered name in the fixed scalar table, defaulting to `text`; in
particular `json` and `jsonb` map to `text`, and any name absent from the
table maps to `text`. -/
theorem type_mapper_total_scalar :
    (∀ (s : String) (u : Option String), py_lower s ≠ "ARRAY" →
        pg_type_to_cql_type s u = (type_mapping.lookup (py_lower s)).getD "text") ∧
    pg_type_to_cql_type "json" none = "text" ∧
    pg_type_to_cql_type "jsonb" none = "text" ∧
    (∀ (s : String) (u : Option String), py_lower s ≠ "ARRAY" →
        type_mapping.lookup (py_lower s) = none → pg_type_to_cql_type s u = "text") := by
  have base : ∀ (s : String) (u : Option String), py_lower s ≠ "ARRAY" →
      pg_type_to_cql_type s u = (type_mapping.lookup (py_lower s)).getD "text" := by
    intro s u h
    unfold pg_type_to_cql_type
    rw [if_neg h]
  refine ⟨base, by decide, by decide, ?_⟩
  intro s u h hnone
  rw [base s u h, hnone]
  rfl

/-- C3 witness: the mapper evaluated at a known scalar name in uppercase and
at an unknown name. -/
theorem type_mapper_total_scalar_witness :
    pg_type_to_cql_type "INTEGER" none = (type_mapping.lookup (py_lower "INTEGER")).getD "text" ∧
    pg_type_to_cql_type "mystery" none = "text" :=
  ⟨type_mapper_total_scalar.1 "INTEGER" none (by decide),
   type_mapper_total_scalar.2.2.2 "mystery" none (by decide) (by decide)⟩

/-- C4: a one-column primary key yields a simple key clause, and a key of
two or more columns yields a doubly parenthesised composite partition key
listing all key columns in key order, with no clustering split. -/
theorem pk_clause_spec :
    (∀ c : String, pk_clause [c] = "PRIMARY KEY (" ++ c ++ ")") ∧
    (∀ pk : List String, 2 ≤ pk.length →
        pk_clause pk = "PRIMARY KEY ((" ++ String.intercalate ", " pk ++ "))") := by
  constructor
  · intro c
    simp [pk_clause]
  · intro pk h
    have hne : pk.length ≠ 1 := by omega
    simp [pk_clause, hne]

/-- C4 witness: the two branches at concrete keys. -/
theorem pk_clause_spec_witness :
    pk_clause ["id"] = "PRIMARY KEY (" ++ "id" ++ ")" ∧
    (2 ≤ (["a", "b"] : List String).length ∧
      pk_clause ["a", "b"] = "PRIMARY KEY ((" ++ String.intercalate ", " ["a", "b"] ++ "))") :=
  ⟨pk_clause_spec.1 "id", by decide, pk_clause_spec.2 ["a", "b"] (by decide)⟩

/-- C5: the generated update hook assigns NEW values to exactly the non-key
columns (a column is in the SET list iff it is a table column outside the
primary key, in declaration order), its WHERE predicate is the conjunction
of all primary-key columns matched against their OLD values, and when the
primary key covers every column the update branch is the no-op comment
instead of an UPDATE of the bridge relation. -/
theorem update_hook_spec :
    (∀ (columns : List Column) (primary_key : List String) (c : String),
        c ∈ non_pk_cols columns primary_key ↔
          (c ∈ col_names columns ∧ c ∉ primary_key)) ∧
    (∀ (columns : List Column) (primary_key : List String) (fdw tbl : String),
        non_pk_cols columns primary_key ≠ [] →
        update_statement fdw tbl columns primary_key =
          "UPDATE \"" ++ fdw ++ "\".\"" ++ tbl ++ "\" SET "
            ++ String.intercalate ", "
              ((non_pk_cols columns primary_key).map
                (fun col => "\"" ++ col ++ "\" = NEW.\"" ++ col ++ "\""))
            ++ " WHERE "
            ++ String.intercalate " AND "
              (primary_key.map (fun pk => "\"" ++ pk ++ "\" = OLD.\"" ++ pk ++ "\""))
            ++ ";") ∧
    (∀ (columns : List Column) (primary_key : List String) (fdw tbl : String),
        (∀ c ∈ col_names columns, c ∈ primary_key) →
        update_statement fdw tbl columns primary_key =
          "-- No columns to update besides primary key") := by
  refine ⟨?_, ?_, ?_⟩
  · intro columns primary_key c
    simp [non_pk_cols, List.mem_filter]
  · intro columns primary_key fdw tbl h
    unfold update_statement
    rw [if_pos h]
    rfl
  · intro columns primary_key fdw tbl hcov
    have hnil : non_pk_cols columns primary_key = [] := by
      simp only [non_pk_cols, List.filter_eq_nil_iff]
      intro a ha
      simp [hcov a ha]
    unfold update_statement
    rw [hnil]
    simp

/-- C5 witness: the update hook for `animals(animal_id PK, name)` and for a
table whose only column is its key. -/
theorem update_hook_spec_witness :
    (("name" ∈ non_pk_cols [col_animal_id, col_animal_name] ["animal_id"]) ↔
      ("name" ∈ col_names [col_animal_id, col_animal_name] ∧ "name" ∉ ["animal_id"])) ∧
    update_statement "scylla_fdw" "animals" [col_animal_id, col_animal_name] ["animal_id"] =
      "UPDATE \"" ++ "scylla_fdw" ++ "\".\"" ++ "animals" ++ "\" SET "
        ++ String.intercalate ", "
          ((non_pk_cols [col_animal_id, col_animal_name] ["animal_id"]).map
            (fun col => "\"" ++ col ++ "\" = NEW.\"" ++ col ++ "\""))
        ++ " WHERE "
        ++ String.intercalate " AND "
          ((["animal_id"] : List String).map
            (fun pk => "\"" ++ pk ++ "\" = OLD.\"" ++ pk ++ "\""))
        ++ ";" ∧
    update_statement "scylla_fdw" "ids" [col_animal_id] ["animal_id"] =
      "-- No columns to update besides primary key" :=
  ⟨update_hook_spec.1 [col_animal_id, col_animal_name] ["animal_id"] "name",
   update_hook_spec.2.1 [col_animal_id, col_animal_name] ["animal_id"] "scylla_fdw" "animals"
     (by decide),
   update_hook_spec.2.2 [col_animal_id] ["animal_id"] "scylla_fdw" "ids" (by decide)⟩

/-- C6: for every worker count `n ≥ 1` and every table list, the round-robin
partition produces exactly `n` buckets, each bucket holds either
`⌊M / n⌋` or `⌈M / n⌉ = (M + n - 1) / n` tables, and the buckets together
are a permutation of the full table list (every table assigned exactly
once). -/
theorem round_robin_fair (n : Nat) (hn : 1 ≤ n) (tables : List α) :
    (thread_tables n tables).length = n ∧
    (∀ k, k < n →
      ((thread_tables n tables).getD k []).length = tables.length / n ∨
      ((thread_tables n tables).getD k []).length = (tables.length + n - 1) / n) ∧
    (thread_tables n tables).flatten.Perm tables := by
  refine ⟨?_, ?_, ?_⟩
  · rw [thread_tables, round_robin_loop_length, List.length_replicate]
  · intro k hk
    rw [thread_tables_getD n k hk, assigned_length_eq, residue_count_eq n k hn hk]
    by_cases h : k < tables.length % n
    · right
      rw [if_pos h,
        ceil_div_of_pos_mod n tables.length hn (Nat.lt_of_le_of_lt (Nat.zero_le k) h)]
    · left
      rw [if_neg h, Nat.add_zero]
  · have hperm := round_robin_loop_flatten n hn tables
      (List.replicate n []) 0 (List.length_replicate n [])
    rw [thread_tables]
    simpa [flatten_replicate_nil] using hperm

/-- C6 witness: two workers over three tables. -/
theorem round_robin_fair_witness :
    (1 ≤ 2) ∧
    ((thread_tables 2 (["a", "b", "c"] : List String)).length = 2 ∧
     (∀ k, k < 2 →
       ((thread_tables 2 (["a", "b", "c"] : List String)).getD k []).length =
           (["a", "b", "c"] : List String).length / 2 ∨
       ((thread_tables 2 (["a", "b", "c"] : List String)).getD k []).length =
           ((["a", "b", "c"] : List String).length + 2 - 1) / 2) ∧
     (thread_tables 2 (["a", "b", "c"] : List String)).flatten.Perm ["a", "b", "c"]) :=
  ⟨by decide, round_robin_fair 2 (by decide) ["a", "b", "c"]⟩

/-- C7: the bulk copy first issues the row-count query; on an empty source
table it returns 0 having issued no copy statement, and otherwise it issues
exactly one bulk insert-select and returns the source row count. -/
theorem migrate_table_data_spec :
    (∀ c : Nat, c = 0 → migrate_table_data c = ([PgStmt.selectCount], 0)) ∧
    (∀ c : Nat, 0 < c →
        (migrate_table_data c).1 = [PgStmt.selectCount, PgStmt.insertSelect] ∧
        (migrate_table_data c).1.count PgStmt.insertSelect = 1 ∧
        (migrate_table_data c).2 = c) := by
  constructor
  · intro c hc
    subst hc
    rfl
  · intro c hc
    have hne : c ≠ 0 := by omega
    refine ⟨?_, ?_, ?_⟩ <;> simp [migrate_table_data, hne]

/-- C7 witness: the bulk copy over an empty and over a three-row source. -/
theorem migrate_table_data_spec_witness :
    migrate_table_data 0 = ([PgStmt.selectCount], 0) ∧
    ((migrate_table_data 3).1 = [PgStmt.selectCount, PgStmt.insertSelect] ∧
     (migrate_table_data 3).1.count PgStmt.insertSelect = 1 ∧
     (migrate_table_data 3).2 = 3) :=
  ⟨migrate_table_data_spec.1 0 rfl, migrate_table_data_spec.2 3 (by decide)⟩

/-- C1 counterexample: a table whose introspected primary-key list is empty
is skipped (skip logged, transaction rolled back, `False` returned without
raising), but the worker loop then lands in its `else: failed += 1` branch,
so the lone skipped table makes the worker's failure tally 1 — it IS added
to the failed count, refuting "counted separately from failures (not added
to the failed count)". -/
theorem skip_counted_as_failed_cex :
    process_table_migration no_pk_env = ⟨false, false, true, false⟩ ∧
    worker_thread true [⟨no_pk_env, false⟩] = (0, 1) ∧
    ¬worker_thread true [⟨no_pk_env, false⟩] = (0, 0) := by
  decide

/-- C1 amended: a table with an empty primary-key list has its skip message
logged, its transaction rolled back and no error raised to the rest of the
run (the remaining failure flags of the environment are irrelevant because
the skip path returns first), but in the aggregate tally the table is
counted as failed — there is no separate skip counter. -/
theorem skip_no_pk_amended (cols : List Column) (k s f tr sk mg vr cm : Bool)
    (src frn : Nat) :
    process_table_migration ⟨cols, [], false, false, k, s, f, tr, sk, mg, src, vr, frn, cm⟩ =
      ⟨false, false, true, false⟩ ∧
    worker_thread true
      [⟨⟨cols, [], false, false, k, s, f, tr, sk, mg, src, vr, frn, cm⟩, false⟩] = (0, 1) :=
  ⟨rfl, rfl⟩

/-- C8: when every database step succeeds and the source held a positive
row count (`src + 1`), the table commits and is recorded as a success
whatever count the verification query reads back: a disagreement only sets
the warning flag (`src + 1 != frn`), and the worker counts the table as
succeeded, never as failed. -/
theorem verify_mismatch_warns_commits (cols : List Column) (pk0 : String)
    (pkr : List String) (src frn : Nat) :
    process_table_migration
        ⟨cols, pk0 :: pkr, false, false, false, false, false, false, false, false,
          src + 1, false, frn, false⟩ =
      ⟨true, true, false, (src + 1 != frn)⟩ ∧
    worker_thread true
      [⟨⟨cols, pk0 :: pkr, false, false, false, false, false, false, false, false,
          src + 1, false, frn, false⟩, false⟩] = (1, 0) := by
  constructor
  · simp [process_table_migration, migrate_table_data]
  · simp [worker_thread, worker_loop, worker_step, process_table_migration,
      migrate_table_data]

/-- C9 counterexample: a worker whose connections fail contributes `(0, 0)`
for its two assigned tables — exactly what a worker with nothing assigned
contributes — and the final report for totals `(0, 0)` is the fixed
two-line summary with no failed line and no mention of the two unprocessed
tables, so the aggregate report does not make the missing tables visible:
the run silently undercounts them. -/
theorem conn_failure_undercount_cex :
    worker_thread false [⟨animals_env, false⟩, ⟨no_pk_env, false⟩] = (0, 0) ∧
    worker_thread true [] = (0, 0) ∧
    final_report 0 0 =
      ["✓ Migration setup completed!", "  - Successfully migrated: 0 table(s)"] := by
  decide

/-- C9 amended: a worker that fails to establish its connections raises
nothing further (the embedded worker is a total function that returns
early), leaves every assigned table unprocessed and adds nothing to either
shared counter; the final aggregate report, however, prints only the
success total (and the failed total when positive), so the missing tables
are not surfaced there — they are visible only in the per-worker
connection-error log and as a shortfall of the totals. -/
theorem conn_failure_amended :
    (∀ tables : List AssignedTable, worker_thread false tables = (0, 0)) ∧
    (∀ s : Nat, final_report s 0 =
      ["✓ Migration setup completed!",
       "  - Successfully migrated: " ++ toString s ++ " table(s)"]) := by
  constructor
  · intro tables
    rfl
  · intro s
    simp [final_report]

/-- C10: a worker with working connections increments exactly one of its two
counters for each assigned table — including tables whose processing raises
unexpectedly — so its success and failure counts sum to the number of
assigned tables; and the shared counters are the fold of the per-worker
pairs, each pair added exactly once (the counter mutex serialises these
updates, modelled by the fold). -/
theorem worker_tally_invariant :
    (∀ tables : List AssignedTable,
        (worker_thread true tables).1 + (worker_thread true tables).2 = tables.length) ∧
    (∀ workers : List (Nat × Nat),
        aggregate_totals workers =
          ((workers.map Prod.fst).sum, (workers.map Prod.snd).sum)) := by
  constructor
  · intro tables
    have h := foldl_worker_step_sum tables (0, 0)
    simpa [worker_thread, worker_loop] using h
  · intro workers
    have h := foldl_totals workers (0, 0)
    simpa [aggregate_totals] using h

end SetupMigration
